import Mathlib

/-!
Verification development for the daily_takings backup/restore core.

The definitions below are a shallow embedding of the TypeScript source:
`FileManager` (listSalesFiles, readSalesFile, createBackup, restoreFromBackup,
validateBackupFile) and `GoogleDriveAPI` (signOut, findOrCreateBackupFolder,
listBackups, uploadBackup, downloadBackup, deleteBackup, getBackupInfo).

JavaScript values produced by JSON.parse are modelled by the inductive `JVal`
(with `undefVal` standing for the JavaScript value `undefined`, which property
access on a non-object yields).  Property access `v.k` on `null`/`undefined`
throws a TypeError in JavaScript; in the embedding every function that can hit
such an access is guarded by `JVal.isNullish` and surfaces the throw through
`Except`.  JSON numbers are modelled as integers (the backup logic never
branches on fractional values).  Byte-level inputs are modelled by
`Option JVal`: `none` is a byte sequence on which JSON.parse throws, `some j`
a byte sequence parsing to `j`.  Writing `salesData` to OPFS stores
`JSON.stringify(salesData)` and reading parses it back; since stringify/parse
round-trips JSON values, the store maps names directly to `JVal`.
-/

namespace DailyTakings

/-- Model of a JavaScript value as obtained from JSON.parse, plus `undefVal`. -/
inductive JVal where
  | undefVal
  | null
  | bool (b : Bool)
  | num (n : Int)
  | str (s : String)
  | arr (xs : List JVal)
  | obj (fields : List (String × JVal))
deriving Repr

/-- JavaScript truthiness of a value. -/
def truthy : JVal → Bool
  | .undefVal => false
  | .null => false
  | .bool b => b
  | .num n => n != 0
  | .str s => s != ""
  | .arr _ => true
  | .obj _ => true

/-- Array.isArray. -/
def isArr : JVal → Bool
  | .arr _ => true
  | _ => false

/-- True for the two JavaScript values on which property access throws. -/
def JVal.isNullish : JVal → Bool
  | .undefVal => true
  | .null => true
  | _ => false

/-- First-match lookup in an object field list. -/
def lookupField : List (String × JVal) → String → JVal
  | [], _ => .undefVal
  | (k, v) :: rest, key => if k = key then v else lookupField rest key

/-- Property access `v.k` for non-nullish `v` (callers guard the nullish case,
where JavaScript throws).  Strings and arrays expose `length`; any other
property of a primitive is `undefined`. -/
def jgetT (v : JVal) (k : String) : JVal :=
  match v with
  | .obj fs => lookupField fs k
  | .arr xs => if k = "length" then .num xs.length else .undefVal
  | .str s => if k = "length" then .num s.length else .undefVal
  | _ => .undefVal

/-- Indexed access `v[i]` as used by the validation loop. -/
def jindex (v : JVal) (i : Nat) : JVal :=
  match v with
  | .arr xs => xs.getD i .undefVal
  | .str s => if i < s.length then .str (String.mk [s.toList.getD i ' ']) else .undefVal
  | .obj fs => lookupField fs (toString i)
  | _ => .undefVal

mutual

/-- String coercion as performed by a template literal (Array join turns
nullish elements into the empty string). -/
def jToString : JVal → String
  | .undefVal => "undefined"
  | .null => "null"
  | .bool b => if b then "true" else "false"
  | .num n => toString n
  | .str s => s
  | .arr xs => String.intercalate "," (jJoinParts xs)
  | .obj _ => "[object Object]"

/-- Element strings for the Array.prototype.join of a template literal. -/
def jJoinParts : List JVal → List String
  | [] => []
  | .undefVal :: rest => "" :: jJoinParts rest
  | .null :: rest => "" :: jJoinParts rest
  | v :: rest => jToString v :: jJoinParts rest

end

/-- Elements of an array value (empty for non-arrays). -/
def jItems : JVal → List JVal
  | .arr xs => xs
  | _ => []

/-- One OPFS entry as seen by FileManager: its name, whether it is a file
(as opposed to a directory), the lastModified stamp of getFile(), and the
parsed content (`none` when reading or JSON-parsing the bytes fails). -/
structure OpfsFile where
  name : String
  isFile : Bool
  lastModified : Int
  parsed : Option JVal

/-- Storage area; `none` models navigator.storage.getDirectory or the entry
iteration throwing, which listSalesFiles turns into an empty listing. -/
abbrev Opfs := Option (List OpfsFile)

/-- Model of getFileHandle on an existing file: directories do not resolve. -/
def findFile (entries : List OpfsFile) (n : String) : Option OpfsFile :=
  entries.find? fun e => e.isFile && e.name == n

/-- FileManager.readSalesFile: returns the parsed content, or none when the
handle lookup, the read, or JSON.parse fails (the catch returns null). -/
def readSalesFile (o : Opfs) (n : String) : Option JVal :=
  match o with
  | none => none
  | some es =>
    match findFile es n with
    | none => none
    | some e => e.parsed

/-- Model of the write performed during restore: getFileHandle(name,
create:true) followed by a full overwrite of the serialized salesData. -/
def writeStore : List OpfsFile → String → JVal → List OpfsFile
  | [], n, v => [⟨n, true, 0, some v⟩]
  | e :: rest, n, v =>
    if e.name = n then ⟨n, true, e.lastModified, some v⟩ :: rest
    else e :: writeStore rest n v

/-- Aggregated outcome of FileManager.restoreFromBackup. -/
structure RestoreResult where
  success : Nat
  failed : Nat
  errors : List String
deriving Repr

/-- Distinguishable causes of restoreFromBackup throwing.  In the source all
of them propagate as a thrown Error whose message embeds the cause;
`invalidFormat` is the one whose cause is the message
"Invalid backup file format". -/
inductive RestoreErr where
  | parseError
  | nullPayload
  | invalidFormat
  | itemAccess
deriving Repr, DecidableEq

/-- Storage name an item is written under: the template-literal coercion of
its fileName property. -/
def itemKey (x : JVal) : String := jToString (jgetT x "fileName")

/-- Error message appended for an item missing fileName or salesData. -/
def badMsg (x : JVal) : String :=
  "Invalid data structure for file: " ++
    (if truthy (jgetT x "fileName") then jToString (jgetT x "fileName")
     else "unknown")

/-- An item the restore loop writes: non-nullish with truthy fileName and
truthy salesData. -/
def goodItem (x : JVal) : Bool :=
  !x.isNullish && truthy (jgetT x "fileName") && truthy (jgetT x "salesData")

/-- Per-item loop of restoreFromBackup.  A nullish item makes the try body
throw at `item.fileName`; the catch block then evaluates `item.fileName`
again, throws once more, and the exception escapes to the outer handler
(`itemAccess`).  Write failure on a well-formed item is modelled by the
`writeOk` oracle and lands in the per-item catch, which for a non-nullish
item appends an error embedding the cause and continues. -/
def restoreLoop (writeOk : String → Bool) :
    List JVal → RestoreResult → List OpfsFile →
    Except RestoreErr (RestoreResult × List OpfsFile)
  | [], r, st => .ok (r, st)
  | item :: rest, r, st =>
    if item.isNullish then .error .itemAccess
    else if !truthy (jgetT item "fileName") || !truthy (jgetT item "salesData") then
      restoreLoop writeOk rest
        ⟨r.success, r.failed + 1, r.errors ++ [badMsg item]⟩ st
    else if writeOk (itemKey item) then
      restoreLoop writeOk rest ⟨r.success + 1, r.failed, r.errors⟩
        (writeStore st (itemKey item) (jgetT item "salesData"))
    else
      restoreLoop writeOk rest
        ⟨r.success, r.failed + 1,
         r.errors ++ ["Failed to restore " ++ itemKey item ++ ": write error"]⟩ st

/-- FileManager.restoreFromBackup.  `parsed` is the JSON.parse outcome of the
backup file bytes; `st` the OPFS file list (an unavailable root is covered by
`writeOk` being constantly false). -/
def restoreFromBackup (writeOk : String → Bool) (parsed : Option JVal)
    (st : List OpfsFile) : Except RestoreErr (RestoreResult × List OpfsFile) :=
  match parsed with
  | none => .error .parseError
  | some backupData =>
    if backupData.isNullish then .error .nullPayload
    else
      let dt := jgetT backupData "data"
      if !truthy dt || !isArr dt then .error .invalidFormat
      else restoreLoop writeOk (jItems dt) ⟨0, 0, []⟩ st

/-- Result shape of FileManager.validateBackupFile; `undefVal` in `fileCount`
or `timestamp` models the corresponding property being absent/undefined. -/
structure VResult where
  valid : Bool
  fileCount : JVal
  timestamp : JVal
  errors : List String
deriving Repr

/-- Errors the validation loop appends for one item at 0-based index `i`. -/
def itemErrsAt (item : JVal) (i : Nat) : List String :=
  (if truthy (jgetT item "fileName") then []
   else ["Item " ++ toString (i + 1) ++ ": Missing fileName"]) ++
  (if truthy (jgetT item "salesData") then []
   else ["Item " ++ toString (i + 1) ++ ": Missing salesData"])

/-- The `for (let i = 0; i < Math.min(data.data.length, 5); i++)` loop:
`i` is the current index, the second argument the remaining iteration count.
Accessing `fileName` on a nullish element throws (Except). -/
def itemChecks (dt : JVal) (i : Nat) : Nat → Except Unit (List String)
  | 0 => .ok []
  | n + 1 =>
    let item := jindex dt i
    if item.isNullish then .error ()
    else
      match itemChecks dt (i + 1) n with
      | .error e => .error e
      | .ok rest => .ok (itemErrsAt item i ++ rest)

/-- Iteration count Math.min(data.data.length, 5): a non-numeric length gives
NaN and the loop does not run. -/
def loopCount (dt : JVal) : Nat :=
  match jgetT dt "length" with
  | .num k => (min k 5).toNat
  | _ => 0

/-- Body of validateBackupFile after a successful JSON.parse; throws (Except)
exactly where the JavaScript would raise a TypeError. -/
def validateBody (j : JVal) : Except Unit VResult :=
  if j.isNullish then .error ()
  else
    let e1 := if truthy (jgetT j "timestamp") then [] else ["Missing timestamp"]
    let e2 := if truthy (jgetT j "version") then [] else ["Missing version"]
    let dt := jgetT j "data"
    let e3 := if truthy dt && isArr dt then []
              else ["Missing or invalid data array"]
    match (if truthy dt then itemChecks dt 0 (loopCount dt) else .ok []) with
    | .error e => .error e
    | .ok e4 =>
      let errors := e1 ++ e2 ++ e3 ++ e4
      let fc := jgetT j "fileCount"
      let fcOut := if truthy fc then fc
                   else if dt.isNullish then .undefVal else jgetT dt "length"
      .ok ⟨errors.isEmpty, fcOut, jgetT j "timestamp", errors⟩

/-- FileManager.validateBackupFile: the surrounding try/catch folds a parse
failure or any TypeError raised by the body into the single catch-all
result. -/
def validateBackupFile (parsed : Option JVal) : VResult :=
  match parsed with
  | none => ⟨false, .undefVal, .undefVal, ["Invalid JSON format or corrupted file"]⟩
  | some j =>
    match validateBody j with
    | .ok r => r
    | .error _ =>
      ⟨false, .undefVal, .undefVal, ["Invalid JSON format or corrupted file"]⟩

/-- Descriptor produced by FileManager.listSalesFiles for one entry. -/
structure SalesFile where
  name : String
  date : String
  lastModified : Int
deriving Repr, DecidableEq

/-- Name filter of listSalesFiles: startsWith sales_ and endsWith .json,
modelled at character level. -/
def keepName (n : String) : Bool :=
  "sales_".toList.isPrefixOf n.toList && ".json".toList.isSuffixOf n.toList

/-- Matcher for the unanchored regex sales_(4 digits)-(2 digits)-(2 digits)
followed by the literal .json, attempted at the head of the character list;
returns the captured date group. -/
def matchSalesDateAt : List Char → Option String
  | 's' :: 'a' :: 'l' :: 'e' :: 's' :: '_' ::
    y1 :: y2 :: y3 :: y4 :: '-' :: m1 :: m2 :: '-' :: d1 :: d2 ::
    '.' :: 'j' :: 's' :: 'o' :: 'n' :: _ =>
    if y1.isDigit && y2.isDigit && y3.isDigit && y4.isDigit &&
       m1.isDigit && m2.isDigit && d1.isDigit && d2.isDigit then
      some (String.mk [y1, y2, y3, y4, '-', m1, m2, '-', d1, d2])
    else none
  | _ => none

/-- Leftmost match of the date-extraction regex over the whole name. -/
def findSalesDate : List Char → Option String
  | [] => none
  | c :: rest =>
    match matchSalesDateAt (c :: rest) with
    | some d => some d
    | none => findSalesDate rest

/-- Date shown for a listed file: the regex capture, or the fallback. -/
def extractDate (n : String) : String :=
  (findSalesDate n.toList).getD "Unknown"

/-- Descriptor built by listSalesFiles for a kept entry. -/
def toSalesFile (e : OpfsFile) : SalesFile :=
  ⟨e.name, extractDate e.name, e.lastModified⟩

/-- Comparator of the final sort: most recently modified first. -/
def salesDesc (a b : SalesFile) : Prop :=
  b.lastModified ≤ a.lastModified

instance : DecidableRel salesDesc := fun a b =>
  inferInstanceAs (Decidable (b.lastModified ≤ a.lastModified))

instance : IsTotal SalesFile salesDesc :=
  ⟨fun a b => Int.le_total b.lastModified a.lastModified⟩

instance : IsTrans SalesFile salesDesc :=
  ⟨fun _ _ _ h1 h2 => le_trans h2 h1⟩

/-- FileManager.listSalesFiles: keeps file entries whose name passes
`keepName`, builds descriptors, and sorts by lastModified descending (a
stable sort, like the Array.prototype.sort of the source).  Any failure of
the underlying storage iteration yields the empty list. -/
def listSalesFiles (o : Opfs) : List SalesFile :=
  match o with
  | none => []
  | some es =>
    List.insertionSort salesDesc
      ((es.filter fun e => e.isFile && keepName e.name).map toSalesFile)

/-- FileManager.createBackup: lists the sales files, reads each one, silently
omits entries whose read fails or whose parsed content is falsy, and wraps
the result in the backup payload object.  `now` stands for the ISO timestamp
taken at creation time; fileCount is set to the number of listed files
before the per-file reads happen. -/
def createBackup (now : String) (o : Opfs) : JVal :=
  let files := listSalesFiles o
  let dataList := files.filterMap fun f =>
    match readSalesFile o f.name with
    | some sd =>
      if truthy sd then
        some (JVal.obj [("fileName", .str f.name), ("date", .str f.date),
                        ("lastModified", .str (toString f.lastModified)),
                        ("salesData", sd)])
      else none
    | none => none
  JVal.obj [("timestamp", .str now), ("version", .str "1.0"),
            ("fileCount", .num files.length), ("data", .arr dataList)]

/-! ### GoogleDriveAPI model

The remote store is modelled as the dedicated backup folder (a flag for its
existence) plus the list of file objects inside it; ids are drawn from a
counter.  Each operation returns, besides its result and the updated client
and store states, the number of network invocations (gapi requests and
fetches) it performed, so that "performs no network call" is a provable
statement.  Transport failures of the authenticated happy path are not
modelled except where a claim needs them. -/

/-- One remote backup object (RemoteBackupEntry plus its content). -/
structure RemoteFile where
  id : Nat
  name : String
  modifiedTime : Int
  content : String
deriving Repr, DecidableEq

/-- Remote-store state: the backup folder flag, its files, and an id source. -/
structure DriveState where
  folderExists : Bool
  files : List RemoteFile
  nextId : Nat
deriving Repr, DecidableEq

/-- Session state of one GoogleDriveAPI instance: the cached bearer token and
the cached backup folder id. -/
structure DriveClient where
  accessToken : Option String
  backupFolderId : Option Nat
deriving Repr, DecidableEq

/-- Substring test (String.prototype.includes). -/
def listContainsSub : List Char → List Char → Bool
  | [], pat => pat.isEmpty
  | c :: t, pat => pat.isPrefixOf (c :: t) || listContainsSub t pat

/-- Substring test on strings. -/
def containsSubstring (s pat : String) : Bool :=
  listContainsSub s.toList pat.toList

/-- GoogleDriveAPI.findOrCreateBackupFolder: returns the cached id if any;
otherwise one list query finds the folder, and a second request creates it
when absent.  The folder receives the fixed id 0. -/
def findOrCreateBackupFolder (c : DriveClient) (d : DriveState) :
    Nat × DriveClient × DriveState × Nat :=
  match c.backupFolderId with
  | some fid => (fid, c, d, 0)
  | none =>
    if d.folderExists then (0, { c with backupFolderId := some 0 }, d, 1)
    else (0, { c with backupFolderId := some 0 },
          { d with folderExists := true }, 2)

/-- Comparator for the modifiedTime desc ordering of the files.list query. -/
def remoteDesc (a b : RemoteFile) : Prop :=
  b.modifiedTime ≤ a.modifiedTime

instance : DecidableRel remoteDesc := fun a b =>
  inferInstanceAs (Decidable (b.modifiedTime ≤ a.modifiedTime))

/-- GoogleDriveAPI.listBackups: without a token the thrown error is caught
and the empty list returned with no request made; otherwise the folder is
resolved and one list query returns the non-trashed files of the folder
whose name contains the backup naming convention, newest first. -/
def listBackups (c : DriveClient) (d : DriveState) :
    List RemoteFile × DriveClient × DriveState × Nat :=
  match c.accessToken with
  | none => ([], c, d, 0)
  | some _ =>
    let (_, c1, d1, k) := findOrCreateBackupFolder c d
    (List.insertionSort remoteDesc
       (d1.files.filter fun f => containsSubstring f.name "daily-takings-backup"),
     c1, d1, k + 1)

/-- Failure kinds of the mutating drive operations; the source throws a
generic Error with a fixed message for each. -/
inductive DriveErr where
  | uploadFailed
  | downloadFailed
deriving Repr, DecidableEq

/-- GoogleDriveAPI.uploadBackup: after the token check it resolves the
folder, lists the existing backups, and looks for an entry with exactly the
requested name; a hit is updated in place (PATCH, same id), a miss creates a
new object (POST, fresh id).  The final upload request always counts as one
network call.  Without a token the catch rethrows the generic upload
failure with no request made. -/
def uploadBackup (payload fileName : String) (now : Int)
    (c : DriveClient) (d : DriveState) :
    Except DriveErr Nat × DriveClient × DriveState × Nat :=
  match c.accessToken with
  | none => (.error .uploadFailed, c, d, 0)
  | some _ =>
    let (_, c1, d1, k1) := findOrCreateBackupFolder c d
    let (existing, c2, d2, k2) := listBackups c1 d1
    match existing.find? (fun f => f.name == fileName) with
    | some f =>
      (.ok f.id, c2,
       { d2 with files := d2.files.map fun g =>
           if g.id == f.id then { g with content := payload, modifiedTime := now }
           else g },
       k1 + k2 + 1)
    | none =>
      (.ok d2.nextId, c2,
       { d2 with files := d2.files ++ [⟨d2.nextId, fileName, now, payload⟩],
                 nextId := d2.nextId + 1 },
       k1 + k2 + 1)

/-- GoogleDriveAPI.downloadBackup: token check first (no request when it
fails), then one fetch by id; a non-ok response becomes the generic download
failure. -/
def downloadBackup (c : DriveClient) (d : DriveState) (fileId : Nat) :
    Except DriveErr String × DriveClient × DriveState × Nat :=
  match c.accessToken with
  | none => (.error .downloadFailed, c, d, 0)
  | some _ =>
    match d.files.find? (fun f => f.id == fileId) with
    | some f => (.ok f.content, c, d, 1)
    | none => (.error .downloadFailed, c, d, 1)

/-- GoogleDriveAPI.deleteBackup: without a token the caught error yields
false with no request; otherwise one delete request removes the object and
the method returns whether the transport status equals 200 (`respStatus`
stands for the status the transport reports for that call). -/
def deleteBackup (respStatus : Nat) (c : DriveClient) (d : DriveState)
    (fileId : Nat) : Bool × DriveClient × DriveState × Nat :=
  match c.accessToken with
  | none => (false, c, d, 0)
  | some _ =>
    (respStatus == 200, c,
     { d with files := d.files.filter fun f => !(f.id == fileId) }, 1)

/-- GoogleDriveAPI.getBackupInfo: without a token the caught error yields
null (absent) with no request; otherwise one get request fetches the
metadata by id. -/
def getBackupInfo (c : DriveClient) (d : DriveState) (fileId : Nat) :
    Option RemoteFile × DriveClient × DriveState × Nat :=
  match c.accessToken with
  | none => (none, c, d, 0)
  | some _ => (d.files.find? (fun f => f.id == fileId), c, d, 1)

/-- GoogleDriveAPI.signOut.  `providerOk` states whether the call into the
underlying auth provider (gapi.auth2.getAuthInstance().signOut()) succeeds;
on success both caches are cleared, and when it throws the catch swallows
the error and the two cache fields are left untouched.  The method itself
never throws. -/
def signOut (providerOk : Bool) (c : DriveClient) : DriveClient :=
  if providerOk then ⟨none, none⟩ else c

/-- Modelled from the spec: the per-record storage name convention
sales_(YYYY-MM-DD).(ext) of section 6, used only to state what the frozen
claim C7 calls "the sales_(date).(ext) pattern": a name matches when it is
the literal prefix sales_ followed by a ten-character ISO date, a dot, and a
nonempty extension without further dots. -/
def specSalesNamePattern (n : String) : Bool :=
  match n.toList with
  | 's' :: 'a' :: 'l' :: 'e' :: 's' :: '_' ::
    y1 :: y2 :: y3 :: y4 :: '-' :: m1 :: m2 :: '-' :: d1 :: d2 :: '.' :: ext =>
    y1.isDigit && y2.isDigit && y3.isDigit && y4.isDigit &&
    m1.isDigit && m2.isDigit && d1.isDigit && d2.isDigit &&
    !ext.isEmpty && ext.all (· != '.')
  | _ => false

/-- Effect of the restore loop writing one good item into the store. -/
def applyGood (st : List OpfsFile) (x : JVal) : List OpfsFile :=
  writeStore st (itemKey x) (jgetT x "salesData")

/-- Canonical form of the validation error list on the normal path for a
payload whose data field is the array `xs`: the three independent header
checks followed by the per-item errors of the first five elements, used to
state theorems about validateBackupFile. -/
def normErrors (j : JVal) (xs : List JVal) : List String :=
  (if truthy (jgetT j "timestamp") then [] else ["Missing timestamp"]) ++
  (if truthy (jgetT j "version") then [] else ["Missing version"]) ++
  (((xs.take 5).enum.map fun p => itemErrsAt p.2 p.1).flatten)

/-! ### Helper lemmas about the restore loop -/

theorem restoreLoop_count (wOk : String → Bool) :
    ∀ (xs : List JVal) (r : RestoreResult) (st : List OpfsFile)
      (r' : RestoreResult) (st' : List OpfsFile),
      restoreLoop wOk xs r st = .ok (r', st') →
      r'.success + r'.failed = r.success + r.failed + xs.length := by
  intro xs
  induction xs with
  | nil =>
    intro r st r' st' h
    simp only [restoreLoop] at h
    cases h
    simp
  | cons item rest ih =>
    intro r st r' st' h
    simp only [restoreLoop] at h
    split at h
    · cases h
    · split at h
      · have h2 := ih _ _ _ _ h
        simp only [List.length_cons] at *
        omega
      · split at h
        · have h2 := ih _ _ _ _ h
          simp only [List.length_cons] at *
          omega
        · have h2 := ih _ _ _ _ h
          simp only [List.length_cons] at *
          omega

theorem restoreLoop_ne_invalidFormat (wOk : String → Bool) :
    ∀ (xs : List JVal) (r : RestoreResult) (st : List OpfsFile),
      restoreLoop wOk xs r st ≠ .error .invalidFormat := by
  intro xs
  induction xs with
  | nil => intro r st h; simp only [restoreLoop] at h; cases h
  | cons item rest ih =>
    intro r st h
    simp only [restoreLoop] at h
    split at h
    · cases h
    · split at h
      · exact ih _ _ h
      · split at h
        · exact ih _ _ h
        · exact ih _ _ h

theorem restoreLoop_total (wOk : String → Bool) :
    ∀ (xs : List JVal) (r : RestoreResult) (st : List OpfsFile),
      (∀ x ∈ xs, x.isNullish = false) →
      ∃ r' st', restoreLoop wOk xs r st = .ok (r', st') := by
  intro xs
  induction xs with
  | nil => intro r st _; exact ⟨r, st, rfl⟩
  | cons item rest ih =>
    intro r st hnn
    have h0 : item.isNullish = false := hnn item (List.mem_cons_self _ _)
    have hrest : ∀ x ∈ rest, x.isNullish = false :=
      fun x hx => hnn x (List.mem_cons_of_mem _ hx)
    simp only [restoreLoop, h0, Bool.false_eq_true, if_false]
    split
    · exact ih _ _ hrest
    · split
      · exact ih _ _ hrest
      · exact ih _ _ hrest

/-! ### Claims C1 and C9: error behaviour and counter partition of restore -/

/-- C1, counterexample.  The payload whose data field is the array holding a
single JSON null passes the structural precondition (data is present, truthy
and an array), yet restoreFromBackup raises: the per-item catch block reads
item.fileName on the null element and the resulting TypeError escapes to the
outer handler, which rethrows.  This refutes the claim that the operation
never raises once decoding and the structural check have succeeded. -/
theorem restore_raises_after_structural_check :
    truthy (jgetT (JVal.obj [("data", JVal.arr [JVal.null])]) "data") = true ∧
    isArr (jgetT (JVal.obj [("data", JVal.arr [JVal.null])]) "data") = true ∧
    restoreFromBackup (fun _ => true)
      (some (JVal.obj [("data", JVal.arr [JVal.null])])) [] =
      .error .itemAccess :=
  ⟨rfl, rfl, rfl⟩

/-- C1 (amended).  For every input: bytes that do not decode raise the parse
failure, not InvalidBackupFormat; once the bytes decode, the operation raises
InvalidBackupFormat exactly when the payload is non-nullish and its data
field is not a truthy array; and when decoding succeeded, the payload is
non-nullish, the structural check passed, and every element of data is
itself non-nullish, the operation never raises and returns a restore result,
whatever the per-item malformation or write failures. -/
theorem restore_invalidFormat_iff_and_totality
    (wOk : String → Bool) (j : JVal) (st : List OpfsFile) :
    restoreFromBackup wOk none st = .error .parseError ∧
    (restoreFromBackup wOk (some j) st = .error .invalidFormat ↔
      j.isNullish = false ∧
        ¬(truthy (jgetT j "data") = true ∧ isArr (jgetT j "data") = true)) ∧
    (j.isNullish = false →
      truthy (jgetT j "data") = true →
      isArr (jgetT j "data") = true →
      (∀ x ∈ jItems (jgetT j "data"), x.isNullish = false) →
      ∃ r st', restoreFromBackup wOk (some j) st = .ok (r, st')) := by
  refine ⟨rfl, ⟨?_, ?_⟩, ?_⟩
  · intro h
    cases hnn : j.isNullish with
    | true => simp [restoreFromBackup, hnn] at h
    | false =>
      refine ⟨rfl, ?_⟩
      rintro ⟨h1, h2⟩
      simp only [restoreFromBackup, hnn, Bool.false_eq_true, if_false,
        h1, h2, Bool.not_true, Bool.or_self] at h
      exact restoreLoop_ne_invalidFormat wOk _ _ _ h
  · rintro ⟨hnn, hnot⟩
    cases h1 : truthy (jgetT j "data") with
    | false => simp [restoreFromBackup, hnn, h1]
    | true =>
      cases h2 : isArr (jgetT j "data") with
      | false => simp [restoreFromBackup, hnn, h1, h2]
      | true => exact absurd ⟨h1, h2⟩ hnot
  · intro hnn h1 h2 hx
    have htot := restoreLoop_total wOk (jItems (jgetT j "data")) ⟨0, 0, []⟩ st hx
    simpa only [restoreFromBackup, hnn, Bool.false_eq_true, if_false,
      h1, h2, Bool.not_true, Bool.or_self] using htot

/-- C1 witness: a well-formed single-item payload with every write failing
still satisfies the hypotheses and yields a returned result. -/
theorem restore_invalidFormat_iff_and_totality_witness :
    truthy (jgetT (JVal.obj
        [("data", JVal.arr [JVal.obj
          [("fileName", JVal.str "sales_a.json"), ("salesData", JVal.num 7)]])])
      "data") = true ∧
    (∃ r st', restoreFromBackup (fun _ => false)
      (some (JVal.obj
        [("data", JVal.arr [JVal.obj
          [("fileName", JVal.str "sales_a.json"), ("salesData", JVal.num 7)]])]))
      [] = .ok (r, st')) :=
  ⟨rfl,
   (restore_invalidFormat_iff_and_totality (fun _ => false)
      (JVal.obj
        [("data", JVal.arr [JVal.obj
          [("fileName", JVal.str "sales_a.json"), ("salesData", JVal.num 7)]])])
      []).2.2 rfl rfl rfl (by decide)⟩

/-- C9: whenever restoreFromBackup returns a result, every element of the
data array has been classified exactly once, so successCount plus
failedCount equals the number of items. -/
theorem restore_counts_partition_items
    (wOk : String → Bool) (j : JVal) (st : List OpfsFile)
    (r : RestoreResult) (st' : List OpfsFile)
    (h : restoreFromBackup wOk (some j) st = .ok (r, st')) :
    r.success + r.failed = (jItems (jgetT j "data")).length := by
  simp only [restoreFromBackup] at h
  split at h
  · cases h
  · split at h
    · cases h
    · have h2 := restoreLoop_count wOk _ _ _ _ _ h
      simpa using h2

/-- C9 witness: a concrete run with one good and one malformed item returns
counts summing to the length of the data array. -/
theorem restore_counts_partition_items_witness :
    restoreFromBackup (fun _ => true)
      (some (JVal.obj [("data", JVal.arr
        [JVal.obj [("fileName", JVal.str "sales_b.json"), ("salesData", JVal.num 3)],
         JVal.obj [("fileName", JVal.str "q")]])])) [] =
      .ok (⟨1, 1, ["Invalid data structure for file: q"]⟩,
           [⟨"sales_b.json", true, 0, some (JVal.num 3)⟩]) ∧
    1 + 1 = (jItems (jgetT (JVal.obj [("data", JVal.arr
        [JVal.obj [("fileName", JVal.str "sales_b.json"), ("salesData", JVal.num 3)],
         JVal.obj [("fileName", JVal.str "q")]])]) "data")).length :=
  ⟨rfl,
   restore_counts_partition_items (fun _ => true) _ []
     ⟨1, 1, ["Invalid data structure for file: q"]⟩
     [⟨"sales_b.json", true, 0, some (JVal.num 3)⟩] rfl⟩

theorem restoreLoop_spec_allwrites :
    ∀ (xs : List JVal) (r : RestoreResult) (st : List OpfsFile),
      (∀ x ∈ xs, x.isNullish = false) →
      restoreLoop (fun _ => true) xs r st =
        .ok (⟨r.success + xs.countP goodItem,
              r.failed + xs.countP (fun x => !goodItem x),
              r.errors ++ (xs.filter (fun x => !goodItem x)).map badMsg⟩,
             (xs.filter goodItem).foldl applyGood st) := by
  intro xs
  induction xs with
  | nil => intro r st _; simp [restoreLoop]
  | cons item rest ih =>
    intro r st hnn
    have h0 : item.isNullish = false := hnn item (List.mem_cons_self _ _)
    have hrest : ∀ x ∈ rest, x.isNullish = false :=
      fun x hx => hnn x (List.mem_cons_of_mem _ hx)
    cases hg : goodItem item with
    | true =>
      have hfn : truthy (jgetT item "fileName") = true := by
        simp only [goodItem, Bool.and_eq_true] at hg
        exact hg.1.2
      have hsd : truthy (jgetT item "salesData") = true := by
        simp only [goodItem, Bool.and_eq_true] at hg
        exact hg.2
      simp only [restoreLoop, h0, Bool.false_eq_true, if_false, hfn, hsd,
        Bool.not_true, Bool.or_self, if_true]
      rw [ih _ _ hrest]
      simp only [List.countP_cons, List.filter_cons, hg, Bool.not_true,
        Bool.false_eq_true, if_false, if_true, List.foldl_cons, applyGood]
      refine congrArg _ (Prod.ext ?_ rfl)
      simp only [RestoreResult.mk.injEq]
      refine ⟨by omega, by omega, by simp⟩
    | false =>
      have hbranch : (!truthy (jgetT item "fileName") ||
          !truthy (jgetT item "salesData")) = true := by
        simp only [goodItem, h0, Bool.not_false, Bool.true_and,
          Bool.and_eq_true] at hg
        cases hfn : truthy (jgetT item "fileName") with
        | false => simp
        | true =>
          cases hsd : truthy (jgetT item "salesData") with
          | false => simp
          | true => simp [hfn, hsd] at hg
      simp only [restoreLoop, h0, Bool.false_eq_true, if_false, hbranch,
        if_true]
      rw [ih _ _ hrest]
      simp only [List.countP_cons, List.filter_cons, hg, Bool.not_false,
        Bool.false_eq_true, if_false, if_true, List.map_cons]
      refine congrArg _ (Prod.ext ?_ rfl)
      simp only [RestoreResult.mk.injEq]
      refine ⟨by omega, by omega, by simp⟩

theorem readSalesFile_writeStore (st : List OpfsFile) (n : String) (v : JVal)
    (m : String) :
    readSalesFile (some (writeStore st n v)) m =
      if m = n then some v else readSalesFile (some st) m := by
  induction st with
  | nil =>
    by_cases h : m = n
    · subst h
      simp [writeStore, readSalesFile, findFile]
    · have h2 : (n == m) = false := beq_eq_false_iff_ne.mpr (Ne.symm h)
      simp [writeStore, readSalesFile, findFile, h, h2]
  | cons e rest ih =>
    by_cases he : e.name = n
    · by_cases h : m = n
      · subst h
        simp [writeStore, he, readSalesFile, findFile]
      · have h2 : (n == m) = false := beq_eq_false_iff_ne.mpr (Ne.symm h)
        have h3 : (e.name == m) = false := by rw [he]; exact h2
        simp [writeStore, he, readSalesFile, findFile, h, h2, h3]
    · simp only [writeStore, he, if_false]
      by_cases hm : (e.isFile && (e.name == m)) = true
      · have hmn : m ≠ n := by
          rcases Bool.and_eq_true _ _ |>.mp hm with ⟨_, hb⟩
          intro hc
          exact he (by rw [eq_of_beq hb, hc])
        simp [readSalesFile, findFile, hm, hmn]
      · have hm' : (e.isFile && (e.name == m)) = false := by simpa using hm
        have ih' := ih
        simp only [readSalesFile, findFile] at ih' ⊢
        simp [List.find?_cons, hm', ih']

theorem read_foldl_unchanged :
    ∀ (gs : List JVal) (st : List OpfsFile) (m : String),
      (∀ y ∈ gs, itemKey y ≠ m) →
      readSalesFile (some (gs.foldl applyGood st)) m =
        readSalesFile (some st) m := by
  intro gs
  induction gs with
  | nil => intro st m _; rfl
  | cons g rest ih =>
    intro st m hk
    simp only [List.foldl_cons]
    rw [ih _ _ (fun y hy => hk y (List.mem_cons_of_mem _ hy))]
    rw [applyGood, readSalesFile_writeStore]
    have : m ≠ itemKey g := fun h => hk g (List.mem_cons_self _ _) h.symm
    simp [this]

theorem read_after_foldl :
    ∀ (gs : List JVal) (st : List OpfsFile),
      gs.Pairwise (fun a b => itemKey a ≠ itemKey b) →
      ∀ x ∈ gs, readSalesFile (some (gs.foldl applyGood st)) (itemKey x) =
        some (jgetT x "salesData") := by
  intro gs
  induction gs with
  | nil => intro st _ x hx; cases hx
  | cons g rest ih =>
    intro st hp x hx
    rcases List.pairwise_cons.mp hp with ⟨hg, hrest⟩
    simp only [List.foldl_cons]
    rcases List.mem_cons.mp hx with rfl | hx'
    · rw [read_foldl_unchanged rest _ _ (fun y hy => (hg y hy).symm)]
      rw [applyGood, readSalesFile_writeStore]
      simp
    · exact ih _ hrest x hx'

theorem countP_not_add {α : Type} (p : α → Bool) (l : List α) :
    l.countP (fun a => !p a) + l.countP p = l.length := by
  induction l with
  | nil => simp
  | cons a t ih => cases h : p a <;> simp [List.countP_cons, h] <;> omega

/-! ### Claim C2: restore of three good items and one missing salesData -/

/-- C2, counterexample.  A payload meeting the hypotheses of the claim (three
items with fileName and salesData, one item missing salesData, all writes
succeeding) in which two of the well-formed items share the fileName "n":
the counts are as claimed, but the first record written under "n" is not
retrievable, because the later item overwrote it; reading "n" yields the
salesData of the second item, not of the first. -/
theorem restore_duplicate_name_not_retrievable :
    restoreFromBackup (fun _ => true)
      (some (JVal.obj [("data", JVal.arr
        [JVal.obj [("fileName", JVal.str "n"), ("salesData", JVal.num 1)],
         JVal.obj [("fileName", JVal.str "n"), ("salesData", JVal.num 2)],
         JVal.obj [("fileName", JVal.str "m"), ("salesData", JVal.num 3)],
         JVal.obj [("fileName", JVal.str "b")]])])) [] =
      .ok (⟨3, 1, ["Invalid data structure for file: b"]⟩,
           [⟨"n", true, 0, some (JVal.num 2)⟩,
            ⟨"m", true, 0, some (JVal.num 3)⟩]) ∧
    readSalesFile
      (some [⟨"n", true, 0, some (JVal.num 2)⟩,
             ⟨"m", true, 0, some (JVal.num 3)⟩]) "n" ≠
      some (JVal.num 1) := by
  refine ⟨rfl, ?_⟩
  intro h
  have h2 : some (JVal.num 2) = some (JVal.num 1) := h
  simp at h2

/-- C2 (amended).  For every payload whose data array holds four non-nullish
items, three of them with truthy fileName and salesData and one with falsy
salesData, and with all store writes succeeding, restore returns
successCount 3 and failedCount 1, the single malformed item contributes
exactly one descriptive error, and, provided the written names of the three
well-formed items are pairwise distinct, each well-formed record is
afterwards retrievable from the store under its name. -/
theorem restore_three_good_one_bad
    (j : JVal) (xs : List JVal) (st : List OpfsFile)
    (hj : j.isNullish = false)
    (hdata : jgetT j "data" = .arr xs)
    (hlen : xs.length = 4)
    (hcnt : xs.countP goodItem = 3)
    (hshape : ∀ x ∈ xs, goodItem x = true ∨
      (x.isNullish = false ∧ truthy (jgetT x "salesData") = false))
    (hdist : (xs.filter goodItem).Pairwise fun a b => itemKey a ≠ itemKey b) :
    ∃ st', restoreFromBackup (fun _ => true) (some j) st =
        .ok (⟨3, 1, (xs.filter fun x => !goodItem x).map badMsg⟩, st') ∧
      ((xs.filter fun x => !goodItem x).map badMsg).length = 1 ∧
      ∀ x ∈ xs, goodItem x = true →
        readSalesFile (some st') (itemKey x) = some (jgetT x "salesData") := by
  have hnn : ∀ x ∈ xs, x.isNullish = false := by
    intro x hx
    rcases hshape x hx with hg | ⟨h1, _⟩
    · simp only [goodItem, Bool.and_eq_true] at hg
      simpa using hg.1.1
    · exact h1
  have hbad : xs.countP (fun x => !goodItem x) = 1 := by
    have := countP_not_add goodItem xs
    omega
  have hspec := restoreLoop_spec_allwrites xs ⟨0, 0, []⟩ st hnn
  refine ⟨(xs.filter goodItem).foldl applyGood st, ?_, ?_, ?_⟩
  · simp only [restoreFromBackup, hj, Bool.false_eq_true, if_false, hdata]
    simp only [truthy, isArr, jItems, Bool.not_true, Bool.or_self,
      Bool.false_eq_true, if_false]
    rw [hspec]
    simp [hcnt, hbad]
  · have hlf : (xs.filter fun x => !goodItem x).length =
        xs.countP (fun x => !goodItem x) :=
      (List.countP_eq_length_filter _ _).symm
    simp [hlf, hbad]
  · intro x hx hgx
    exact read_after_foldl _ st hdist x (List.mem_filter.mpr ⟨hx, hgx⟩)

/-- C2 witness: a concrete payload with three distinct well-formed items and
one item lacking salesData satisfies every hypothesis. -/
theorem restore_three_good_one_bad_witness :
    ([JVal.obj [("fileName", JVal.str "sales_1.json"), ("salesData", JVal.num 11)],
      JVal.obj [("fileName", JVal.str "sales_2.json"), ("salesData", JVal.num 12)],
      JVal.obj [("fileName", JVal.str "sales_3.json"), ("salesData", JVal.num 13)],
      JVal.obj [("fileName", JVal.str "sales_4.json")]].countP goodItem = 3) ∧
    (∃ st', restoreFromBackup (fun _ => true)
      (some (JVal.obj [("data", JVal.arr
        [JVal.obj [("fileName", JVal.str "sales_1.json"), ("salesData", JVal.num 11)],
         JVal.obj [("fileName", JVal.str "sales_2.json"), ("salesData", JVal.num 12)],
         JVal.obj [("fileName", JVal.str "sales_3.json"), ("salesData", JVal.num 13)],
         JVal.obj [("fileName", JVal.str "sales_4.json")]])])) [] =
        .ok (⟨3, 1,
          ([JVal.obj [("fileName", JVal.str "sales_1.json"), ("salesData", JVal.num 11)],
            JVal.obj [("fileName", JVal.str "sales_2.json"), ("salesData", JVal.num 12)],
            JVal.obj [("fileName", JVal.str "sales_3.json"), ("salesData", JVal.num 13)],
            JVal.obj [("fileName", JVal.str "sales_4.json")]].filter
              fun x => !goodItem x).map badMsg⟩, st') ∧
      (([JVal.obj [("fileName", JVal.str "sales_1.json"), ("salesData", JVal.num 11)],
         JVal.obj [("fileName", JVal.str "sales_2.json"), ("salesData", JVal.num 12)],
         JVal.obj [("fileName", JVal.str "sales_3.json"), ("salesData", JVal.num 13)],
         JVal.obj [("fileName", JVal.str "sales_4.json")]].filter
           fun x => !goodItem x).map badMsg).length = 1 ∧
      ∀ x ∈ [JVal.obj [("fileName", JVal.str "sales_1.json"), ("salesData", JVal.num 11)],
             JVal.obj [("fileName", JVal.str "sales_2.json"), ("salesData", JVal.num 12)],
             JVal.obj [("fileName", JVal.str "sales_3.json"), ("salesData", JVal.num 13)],
             JVal.obj [("fileName", JVal.str "sales_4.json")]], goodItem x = true →
        readSalesFile (some st') (itemKey x) = some (jgetT x "salesData")) :=
  ⟨by decide,
   restore_three_good_one_bad _ _ [] rfl rfl (by decide) (by decide)
     (by decide) (by decide)⟩

/-! ### Helper lemmas about validation -/

theorem enumFrom_cons_eq {α : Type} (n : Nat) (a : α) (l : List α) :
    List.enumFrom n (a :: l) = (n, a) :: List.enumFrom (n + 1) l := rfl

theorem itemChecks_arr :
    ∀ (n i : Nat) (xs : List JVal),
      i + n ≤ xs.length →
      (∀ x ∈ (xs.drop i).take n, x.isNullish = false) →
      itemChecks (.arr xs) i n =
        .ok ((((xs.drop i).take n).enumFrom i).map
          fun p => itemErrsAt p.2 p.1).flatten := by
  intro n
  induction n with
  | zero => intro i xs _ _; simp [itemChecks]
  | succ n ih =>
    intro i xs hlen hnn
    have hi : i < xs.length := by omega
    have hdrop : xs.drop i = xs[i] :: xs.drop (i + 1) :=
      List.drop_eq_getElem_cons hi
    have hitem : jindex (.arr xs) i = xs[i] := by
      simp only [jindex]
      exact List.getD_eq_getElem xs _ hi
    have hx0 : xs[i].isNullish = false := by
      apply hnn
      rw [hdrop, List.take_succ_cons]
      exact List.mem_cons_self _ _
    have hnn' : ∀ x ∈ (xs.drop (i + 1)).take n, x.isNullish = false := by
      intro x hx
      apply hnn
      rw [hdrop, List.take_succ_cons]
      exact List.mem_cons_of_mem _ hx
    simp only [itemChecks, hitem, hx0, Bool.false_eq_true, if_false]
    rw [ih (i + 1) xs (by omega) hnn']
    rw [hdrop, List.take_succ_cons, enumFrom_cons_eq, List.map_cons,
      List.flatten_cons]

theorem validateBody_arr (j : JVal) (xs : List JVal)
    (hj : j.isNullish = false) (hdata : jgetT j "data" = .arr xs)
    (h5 : ∀ x ∈ xs.take 5, x.isNullish = false) :
    validateBody j = .ok
      ⟨(normErrors j xs).isEmpty,
       (if truthy (jgetT j "fileCount") then jgetT j "fileCount"
        else .num xs.length),
       jgetT j "timestamp",
       normErrors j xs⟩ := by
  have hlc0 : loopCount (.arr xs) = (min (xs.length : Int) 5).toNat := rfl
  have hlc : loopCount (.arr xs) = min xs.length 5 := by
    rw [hlc0]; omega
  have heq : (xs.drop 0).take (min xs.length 5) = xs.take 5 := by
    simp only [List.drop_zero]
    rcases le_total xs.length 5 with h | h
    · rw [min_eq_left h, List.take_of_length_le h,
        List.take_of_length_le (le_refl _)]
    · rw [min_eq_right h]
  have h5' : ∀ x ∈ (xs.drop 0).take (min xs.length 5), x.isNullish = false := by
    rw [heq]; exact h5
  have hic := itemChecks_arr (min xs.length 5) 0 xs (by omega) h5'
  rw [heq] at hic
  simp only [validateBody, hj, Bool.false_eq_true, if_false, hdata, hlc, hic]
  simp [normErrors, truthy, isArr, jgetT, List.enum, JVal.isNullish]

theorem validateBackupFile_valid_iff (parsed : Option JVal) :
    (validateBackupFile parsed).valid = true ↔
      (validateBackupFile parsed).errors = [] := by
  cases parsed with
  | none => simp [validateBackupFile]
  | some j =>
    simp only [validateBackupFile]
    cases hv : validateBody j with
    | error e => simp
    | ok r =>
      have hr : r.valid = r.errors.isEmpty := by
        simp only [validateBody] at hv
        split at hv
        · cases hv
        · split at hv
          · cases hv
          · injection hv with h
            subst h
            rfl
      rw [hr, List.isEmpty_iff]

/-! ### Claims C3 and C10: validateBackupFile -/

/-- C3, counterexample.  A payload missing timestamp whose data array holds a
JSON null: the validation loop reads fileName on the null element, the
TypeError lands in the catch-all, and the result is the single generic error;
valid is false but no error mentions timestamp, refuting the claimed
behaviour for this payload. -/
theorem validate_missing_timestamp_swallowed :
    (validateBackupFile
      (some (JVal.obj [("data", JVal.arr [JVal.null])]))).valid = false ∧
    (validateBackupFile
      (some (JVal.obj [("data", JVal.arr [JVal.null])]))).errors =
      ["Invalid JSON format or corrupted file"] ∧
    ∀ e ∈ (validateBackupFile
      (some (JVal.obj [("data", JVal.arr [JVal.null])]))).errors,
      containsSubstring e "timestamp" = false :=
  ⟨rfl, rfl, by decide⟩

/-- C3 (amended).  valid is true exactly when the error list is empty, for
every input.  For a non-nullish payload: when data is falsy the three header
checks still run independently and the error list is exactly the independent
concatenation ending in the data error; when data is an array whose first
five elements are non-nullish, the error list is the independent header
checks followed by one error per missing field among the first five items,
each naming the 1-based index, and a payload missing timestamp yields
valid false with the error mentioning timestamp present. -/
theorem validate_independent_checks (parsed : Option JVal) :
    ((validateBackupFile parsed).valid = true ↔
      (validateBackupFile parsed).errors = []) ∧
    (∀ j, parsed = some j → j.isNullish = false →
      truthy (jgetT j "data") = false →
      (validateBackupFile parsed).errors =
        (if truthy (jgetT j "timestamp") then [] else ["Missing timestamp"]) ++
        (if truthy (jgetT j "version") then [] else ["Missing version"]) ++
        ["Missing or invalid data array"]) ∧
    (∀ j xs, parsed = some j → j.isNullish = false →
      jgetT j "data" = .arr xs →
      (∀ x ∈ xs.take 5, x.isNullish = false) →
      (validateBackupFile parsed).errors = normErrors j xs ∧
      (truthy (jgetT j "timestamp") = false →
        (validateBackupFile parsed).valid = false ∧
        "Missing timestamp" ∈ (validateBackupFile parsed).errors)) := by
  refine ⟨validateBackupFile_valid_iff parsed, ?_, ?_⟩
  · rintro j rfl hj hdt
    simp [validateBackupFile, validateBody, hj, hdt]
  · rintro j xs rfl hj hdata h5
    have hv := validateBody_arr j xs hj hdata h5
    constructor
    · simp [validateBackupFile, hv]
    · intro hts
      constructor
      · simp [validateBackupFile, hv, normErrors, hts]
      · simp [validateBackupFile, hv, normErrors, hts]

/-- C3 witness: a payload missing timestamp and version with one empty item
in data satisfies the hypotheses of the array case. -/
theorem validate_independent_checks_witness :
    ((validateBackupFile
        (some (JVal.obj [("data", JVal.arr [JVal.obj []])]))).errors =
      normErrors (JVal.obj [("data", JVal.arr [JVal.obj []])])
        [JVal.obj []]) ∧
    (validateBackupFile
        (some (JVal.obj [("data", JVal.arr [JVal.obj []])]))).valid = false ∧
    "Missing timestamp" ∈ (validateBackupFile
        (some (JVal.obj [("data", JVal.arr [JVal.obj []])]))).errors := by
  have h := (validate_independent_checks
      (some (JVal.obj [("data", JVal.arr [JVal.obj []])]))).2.2
    (JVal.obj [("data", JVal.arr [JVal.obj []])]) [JVal.obj []]
    rfl rfl rfl (by decide)
  exact ⟨h.1, (h.2 rfl).1, (h.2 rfl).2⟩

/-- C10, counterexample.  A payload with stored fileCount 7 (present and
nonzero) whose data array holds a JSON null: validation throws on the null
item, the catch-all result carries no fileCount at all, and the reported
fileCount is not the stored one. -/
theorem validate_fileCount_lost_on_null_item :
    truthy (jgetT (JVal.obj [("fileCount", JVal.num 7),
      ("data", JVal.arr [JVal.null])]) "fileCount") = true ∧
    (validateBackupFile (some (JVal.obj [("fileCount", JVal.num 7),
      ("data", JVal.arr [JVal.null])]))).fileCount = .undefVal ∧
    ¬((validateBackupFile (some (JVal.obj [("fileCount", JVal.num 7),
        ("data", JVal.arr [JVal.null])]))).fileCount =
      jgetT (JVal.obj [("fileCount", JVal.num 7),
        ("data", JVal.arr [JVal.null])]) "fileCount") := by
  refine ⟨rfl, rfl, ?_⟩
  intro h
  have h2 : (JVal.undefVal : JVal) = JVal.num 7 := h
  simp at h2

/-- C10 (amended).  For a non-nullish payload whose data is an array with
non-nullish first five elements (so validation completes normally), the
reported fileCount is the stored fileCount field whenever that field is
truthy, and is the length of data exactly when the stored field is falsy
(absent or zero); it is never recomputed from data when the stored field is
truthy. -/
theorem validate_fileCount_prefers_stored (j : JVal) (xs : List JVal)
    (hj : j.isNullish = false) (hdata : jgetT j "data" = .arr xs)
    (h5 : ∀ x ∈ xs.take 5, x.isNullish = false) :
    (truthy (jgetT j "fileCount") = true →
      (validateBackupFile (some j)).fileCount = jgetT j "fileCount") ∧
    (truthy (jgetT j "fileCount") = false →
      (validateBackupFile (some j)).fileCount = .num xs.length) := by
  have hv := validateBody_arr j xs hj hdata h5
  constructor <;> intro h <;> simp [validateBackupFile, hv, h]

/-- C10 witness: stored fileCount 7 with a single-item data array is
reported verbatim. -/
theorem validate_fileCount_prefers_stored_witness :
    truthy (jgetT (JVal.obj [("fileCount", JVal.num 7),
      ("data", JVal.arr [JVal.obj [("fileName", JVal.str "a"),
        ("salesData", JVal.num 1)]])]) "fileCount") = true ∧
    (validateBackupFile (some (JVal.obj [("fileCount", JVal.num 7),
      ("data", JVal.arr [JVal.obj [("fileName", JVal.str "a"),
        ("salesData", JVal.num 1)]])]))).fileCount =
      jgetT (JVal.obj [("fileCount", JVal.num 7),
        ("data", JVal.arr [JVal.obj [("fileName", JVal.str "a"),
          ("salesData", JVal.num 1)]])]) "fileCount" :=
  ⟨rfl,
   (validate_fileCount_prefers_stored
      (JVal.obj [("fileCount", JVal.num 7),
        ("data", JVal.arr [JVal.obj [("fileName", JVal.str "a"),
          ("salesData", JVal.num 1)]])])
      [JVal.obj [("fileName", JVal.str "a"), ("salesData", JVal.num 1)]]
      rfl rfl (by decide)).1 rfl⟩

/-! ### Claims C6 and C7: createBackup and listSalesFiles -/

theorem length_filterMap_of_all_some {α β : Type} (g : α → Option β)
    (l : List α) (h : ∀ a ∈ l, ∃ b, g a = some b) :
    (l.filterMap g).length = l.length := by
  induction l with
  | nil => rfl
  | cons a t ih =>
    rcases h a (List.mem_cons_self _ _) with ⟨b, hb⟩
    simp [List.filterMap_cons, hb,
      ih (fun x hx => h x (List.mem_cons_of_mem _ hx))]

/-- C6, counterexample.  One listed sales file whose read fails: the payload
carries fileCount 1 while its data sequence is empty, so fileCount does not
count the entries that made it into data. -/
theorem createBackup_fileCount_exceeds_data :
    jgetT (createBackup "T" (some [⟨"sales_a.json", true, 0, none⟩]))
      "fileCount" = .num 1 ∧
    jgetT (createBackup "T" (some [⟨"sales_a.json", true, 0, none⟩]))
      "data" = .arr [] ∧
    ¬(jgetT (createBackup "T" (some [⟨"sales_a.json", true, 0, none⟩]))
        "fileCount" =
      .num (jItems (jgetT (createBackup "T"
        (some [⟨"sales_a.json", true, 0, none⟩])) "data")).length) := by
  refine ⟨rfl, rfl, ?_⟩
  intro h
  have h2 : JVal.num 1 = JVal.num 0 := h
  simp at h2

/-- C6 (amended).  The encoded fileCount always equals the number of listed
records at creation time, not the number of entries of data; records that
fail to read (or parse to a falsy value) are silently omitted from data, so
fileCount can exceed the length of data, and the two agree whenever every
listed record reads successfully to a truthy value. -/
theorem createBackup_fileCount_counts_listed (now : String) (o : Opfs) :
    jgetT (createBackup now o) "fileCount" =
      .num (listSalesFiles o).length ∧
    ((∀ f ∈ listSalesFiles o,
        ∃ v, readSalesFile o f.name = some v ∧ truthy v = true) →
      (jItems (jgetT (createBackup now o) "data")).length =
        (listSalesFiles o).length) := by
  constructor
  · rfl
  · intro h
    have hshow : jItems (jgetT (createBackup now o) "data") =
        (listSalesFiles o).filterMap (fun f =>
          match readSalesFile o f.name with
          | some sd =>
            if truthy sd then
              some (JVal.obj [("fileName", .str f.name), ("date", .str f.date),
                              ("lastModified", .str (toString f.lastModified)),
                              ("salesData", sd)])
            else none
          | none => none) := rfl
    rw [hshow]
    apply length_filterMap_of_all_some
    intro f hf
    rcases h f hf with ⟨v, hv, htv⟩
    exact ⟨JVal.obj [("fileName", .str f.name), ("date", .str f.date),
             ("lastModified", .str (toString f.lastModified)),
             ("salesData", v)],
           by rw [hv]; simp [htv]⟩

/-- C6 witness: a single listed record that reads successfully makes data
and the listing agree in length. -/
theorem createBackup_fileCount_counts_listed_witness :
    (∀ f ∈ listSalesFiles
        (some [⟨"sales_2025-01-15.json", true, 0, some (JVal.num 50)⟩]),
      ∃ v, readSalesFile
          (some [⟨"sales_2025-01-15.json", true, 0, some (JVal.num 50)⟩])
          f.name = some v ∧ truthy v = true) ∧
    (jItems (jgetT (createBackup "T"
        (some [⟨"sales_2025-01-15.json", true, 0, some (JVal.num 50)⟩]))
      "data")).length =
      (listSalesFiles
        (some [⟨"sales_2025-01-15.json", true, 0, some (JVal.num 50)⟩])).length := by
  have hp : ∀ f ∈ listSalesFiles
      (some [⟨"sales_2025-01-15.json", true, 0, some (JVal.num 50)⟩]),
      ∃ v, readSalesFile
          (some [⟨"sales_2025-01-15.json", true, 0, some (JVal.num 50)⟩])
          f.name = some v ∧ truthy v = true := by
    intro f hf
    rw [show listSalesFiles
        (some [⟨"sales_2025-01-15.json", true, 0, some (JVal.num 50)⟩]) =
        [⟨"sales_2025-01-15.json", "2025-01-15", 0⟩] from rfl,
      List.mem_singleton] at hf
    subst hf
    exact ⟨JVal.num 50, rfl, rfl⟩
  exact ⟨hp,
    (createBackup_fileCount_counts_listed "T"
      (some [⟨"sales_2025-01-15.json", true, 0, some (JVal.num 50)⟩])).2 hp⟩

/-- C7, counterexample.  The entry sales_abc.json does not match the
per-record name convention sales_(YYYY-MM-DD).(ext) of the specification
(its date part is not a date, and the code itself fails to parse one,
reporting the date as Unknown), yet listSalesFiles includes it: the code
only checks the sales_ prefix and the .json suffix. -/
theorem listSalesFiles_includes_undated_name :
    listSalesFiles (some [⟨"sales_abc.json", true, 0, some (JVal.num 1)⟩]) =
      [⟨"sales_abc.json", "Unknown", 0⟩] ∧
    specSalesNamePattern "sales_abc.json" = false ∧
    specSalesNamePattern "sales_2024-06-01.json" = true :=
  ⟨rfl, by decide, by decide⟩

/-- C7 (amended).  listSalesFiles includes exactly the file entries whose
name starts with sales_ and ends with .json (the date part is not
validated; a name such as sales_abc.json is included with date Unknown, and
notes.txt is skipped), sorted by lastModified descending, and an unreadable
storage area yields the empty sequence. -/
theorem listSalesFiles_filter_sort (es : List OpfsFile) :
    listSalesFiles none = [] ∧
    (listSalesFiles (some es)).Perm
      ((es.filter fun e => e.isFile && keepName e.name).map toSalesFile) ∧
    (listSalesFiles (some es)).Sorted salesDesc ∧
    keepName "notes.txt" = false ∧
    keepName "sales_2024-06-01.json" = true :=
  ⟨rfl, List.perm_insertionSort _ _, List.sorted_insertionSort _ _,
   by decide, by decide⟩

/-! ### Claims C4, C5 and C8: the Remote Backup Client -/

/-- C4, counterexample.  On an unauthenticated client the three read-side
operations do not fail at all: their internal NotAuthenticated throw is
caught inside the method, which completes normally returning the empty
list, false, and absent respectively. -/
theorem unauthenticated_ops_return_defaults :
    deleteBackup 204 ⟨none, none⟩
      ⟨true, [⟨1, "daily-takings-backup-a.json", 5, "c"⟩], 2⟩ 1 =
      (false, ⟨none, none⟩,
       ⟨true, [⟨1, "daily-takings-backup-a.json", 5, "c"⟩], 2⟩, 0) ∧
    getBackupInfo ⟨none, none⟩
      ⟨true, [⟨1, "daily-takings-backup-a.json", 5, "c"⟩], 2⟩ 1 =
      (none, ⟨none, none⟩,
       ⟨true, [⟨1, "daily-takings-backup-a.json", 5, "c"⟩], 2⟩, 0) ∧
    listBackups ⟨none, none⟩
      ⟨true, [⟨1, "daily-takings-backup-a.json", 5, "c"⟩], 2⟩ =
      ([], ⟨none, none⟩,
       ⟨true, [⟨1, "daily-takings-backup-a.json", 5, "c"⟩], 2⟩, 0) :=
  ⟨rfl, rfl, rfl⟩

/-- C4 (amended).  Every data operation called on an unauthenticated client
performs no network call and leaves both states unchanged; uploadBackup and
downloadBackup fail (with the generic upload and download failures the
catch-all rethrows), while listBackups returns the empty list, deleteBackup
returns false, and getBackupInfo returns absent, each per its own
error-swallowing policy. -/
theorem unauthenticated_ops_no_network
    (c : DriveClient) (d : DriveState) (payload fileName : String)
    (now : Int) (fileId : Nat) (respStatus : Nat)
    (h : c.accessToken = none) :
    listBackups c d = ([], c, d, 0) ∧
    uploadBackup payload fileName now c d = (.error .uploadFailed, c, d, 0) ∧
    downloadBackup c d fileId = (.error .downloadFailed, c, d, 0) ∧
    deleteBackup respStatus c d fileId = (false, c, d, 0) ∧
    getBackupInfo c d fileId = (none, c, d, 0) := by
  rcases c with ⟨tok, fid⟩
  obtain rfl : tok = none := h
  exact ⟨rfl, rfl, rfl, rfl, rfl⟩

/-- C4 witness: a concrete unauthenticated client against a nonempty store. -/
theorem unauthenticated_ops_no_network_witness :
    listBackups ⟨none, some 3⟩ ⟨true, [⟨1, "daily-takings-backup-b.json", 9, "x"⟩], 4⟩ =
      ([], ⟨none, some 3⟩,
       ⟨true, [⟨1, "daily-takings-backup-b.json", 9, "x"⟩], 4⟩, 0) ∧
    uploadBackup "p" "f" 5 ⟨none, some 3⟩
        ⟨true, [⟨1, "daily-takings-backup-b.json", 9, "x"⟩], 4⟩ =
      (.error .uploadFailed, ⟨none, some 3⟩,
       ⟨true, [⟨1, "daily-takings-backup-b.json", 9, "x"⟩], 4⟩, 0) ∧
    downloadBackup ⟨none, some 3⟩
        ⟨true, [⟨1, "daily-takings-backup-b.json", 9, "x"⟩], 4⟩ 1 =
      (.error .downloadFailed, ⟨none, some 3⟩,
       ⟨true, [⟨1, "daily-takings-backup-b.json", 9, "x"⟩], 4⟩, 0) ∧
    deleteBackup 200 ⟨none, some 3⟩
        ⟨true, [⟨1, "daily-takings-backup-b.json", 9, "x"⟩], 4⟩ 1 =
      (false, ⟨none, some 3⟩,
       ⟨true, [⟨1, "daily-takings-backup-b.json", 9, "x"⟩], 4⟩, 0) ∧
    getBackupInfo ⟨none, some 3⟩
        ⟨true, [⟨1, "daily-takings-backup-b.json", 9, "x"⟩], 4⟩ 1 =
      (none, ⟨none, some 3⟩,
       ⟨true, [⟨1, "daily-takings-backup-b.json", 9, "x"⟩], 4⟩, 0) :=
  unauthenticated_ops_no_network ⟨none, some 3⟩
    ⟨true, [⟨1, "daily-takings-backup-b.json", 9, "x"⟩], 4⟩
    "p" "f" 5 1 200 rfl

/-- C5, counterexample.  A file name that does not contain the substring
daily-takings-backup: the existing-file lookup goes through listBackups,
whose query filters on that substring, so the second upload of x.json never
sees the first and creates a duplicate; two remote entries named x.json
exist afterwards. -/
theorem upload_duplicates_nonconvention_name :
    ((uploadBackup "b2" "x.json" 20
        (uploadBackup "b1" "x.json" 10 ⟨some "tok", none⟩
          ⟨false, [], 1⟩).2.1
        (uploadBackup "b1" "x.json" 10 ⟨some "tok", none⟩
          ⟨false, [], 1⟩).2.2.1).2.2.1.files.countP
      (fun f => f.name == "x.json")) = 2 := by
  rfl

/-- C5 (amended).  For a file name following the backup naming convention
(containing daily-takings-backup, as every orchestrator-derived name does),
uploadBackup checks the backup container for an entry with that exact name
and updates it in place keeping the same remote id, creating a new object
only when absent; hence two uploads of the same such name against an
initially empty container leave exactly one remote entry with that name,
the second call returns the same remote id as the first, and listBackups
has the same length after the second call as after the first.  For names
outside the convention the lookup misses and duplicates accumulate. -/
theorem upload_dedup_convention_names
    (tok p1 p2 fn : String) (t1 t2 : Int) (b : Bool) (n : Nat)
    (hconv : containsSubstring fn "daily-takings-backup" = true) :
    ((uploadBackup p1 fn t1 ⟨some tok, none⟩ ⟨b, [], n⟩).2.2.1.files.countP
        (fun f => f.name == fn) = 1) ∧
    (((uploadBackup p2 fn t2
        (uploadBackup p1 fn t1 ⟨some tok, none⟩ ⟨b, [], n⟩).2.1
        (uploadBackup p1 fn t1 ⟨some tok, none⟩ ⟨b, [], n⟩).2.2.1).2.2.1.files.countP
        (fun f => f.name == fn)) = 1) ∧
    (uploadBackup p2 fn t2
        (uploadBackup p1 fn t1 ⟨some tok, none⟩ ⟨b, [], n⟩).2.1
        (uploadBackup p1 fn t1 ⟨some tok, none⟩ ⟨b, [], n⟩).2.2.1).1 =
      (uploadBackup p1 fn t1 ⟨some tok, none⟩ ⟨b, [], n⟩).1 ∧
    (listBackups
        (uploadBackup p2 fn t2
          (uploadBackup p1 fn t1 ⟨some tok, none⟩ ⟨b, [], n⟩).2.1
          (uploadBackup p1 fn t1 ⟨some tok, none⟩ ⟨b, [], n⟩).2.2.1).2.1
        (uploadBackup p2 fn t2
          (uploadBackup p1 fn t1 ⟨some tok, none⟩ ⟨b, [], n⟩).2.1
          (uploadBackup p1 fn t1 ⟨some tok, none⟩ ⟨b, [], n⟩).2.2.1).2.2.1).1.length =
      (listBackups
        (uploadBackup p1 fn t1 ⟨some tok, none⟩ ⟨b, [], n⟩).2.1
        (uploadBackup p1 fn t1 ⟨some tok, none⟩ ⟨b, [], n⟩).2.2.1).1.length := by
  cases b <;>
    simp [uploadBackup, findOrCreateBackupFolder, listBackups, hconv,
      List.insertionSort, List.orderedInsert, List.countP_cons]

/-- C5 witness: two uploads of a conventional backup name from a fresh
session and empty store keep one entry and one listing element. -/
theorem upload_dedup_convention_names_witness :
    containsSubstring "daily-takings-backup-2025-06-01.json"
      "daily-takings-backup" = true ∧
    ((uploadBackup "b1" "daily-takings-backup-2025-06-01.json" 10
        ⟨some "tok", none⟩ ⟨false, [], 1⟩).2.2.1.files.countP
      (fun f => f.name == "daily-takings-backup-2025-06-01.json") = 1) :=
  ⟨by decide,
   (upload_dedup_convention_names "tok" "b1" "b2"
      "daily-takings-backup-2025-06-01.json" 10 20 false 1 (by decide)).1⟩

/-- C8, counterexample.  When the call into the underlying auth provider
throws (as it does, for instance, when the provider script is not loaded),
the catch swallows the error before the two cache assignments run, so a
client holding a bearer token and a cached folder id keeps both after
signOut, contradicting the claim that they are always cleared. -/
theorem signOut_keeps_caches_on_provider_failure :
    (signOut false ⟨some "t", some 3⟩).accessToken = some "t" ∧
    (signOut false ⟨some "t", some 3⟩).backupFolderId = some 3 ∧
    (signOut false ⟨some "t", some 3⟩).accessToken ≠ none :=
  ⟨rfl, rfl, by decide⟩

/-- C8 (amended).  signOut never throws (the embedding is a total function
whatever the provider outcome): when the provider sign-out succeeds both
caches are cleared together, when it throws both are left untouched
together, and an already-signed-out client stays signed out in either
case. -/
theorem signOut_clears_only_on_provider_success
    (ok : Bool) (c : DriveClient) :
    signOut true c = ⟨none, none⟩ ∧
    signOut false c = c ∧
    signOut ok ⟨none, none⟩ = ⟨none, none⟩ := by
  refine ⟨rfl, rfl, ?_⟩
  cases ok <;> rfl

end DailyTakings
